import Mathlib

/-!
Shallow embedding of the Oracle database client
(`src/apps/studio/src/lib/db/clients/oracle.ts`) of beekeeper-studio,
together with proofs settling the frozen claims about it.

Conventions of the embedding:
* JavaScript strings are Lean `String`; the JS string methods used by the
  source (`trimEnd`, `endsWith`, `slice(0,-1)`, `includes`, `toUpperCase`,
  template-literal stringification of numbers) are embedded as explicit
  functions over the character data.
* JS `number | null / undefined` parameters are `Option Int`
  (`_.isNumber` becomes `Option.isSome`).
* Code that would raise a `TypeError` on an ill-shaped dynamic value is
  embedded with an `Option` result.
* The database engine, the `oracledb` driver and the knex query builder are
  external collaborators: their behaviour at the call boundary is modelled
  from the spec (standard SQL semantics of the emitted query text), and each
  such definition is marked `Modelled from the spec:` in its doc comment.
-/

/-- Embedding of the JS whitespace test used by `String.prototype.trimEnd`. -/
def jsIsWhitespace (c : Char) : Bool := c.isWhitespace

/-- Embedding of JS `s.trimEnd()`: remove trailing whitespace characters. -/
def jsTrimEnd (s : String) : String :=
  String.mk ((s.data.reverse.dropWhile jsIsWhitespace).reverse)

/-- Embedding of JS `s.endsWith(suffix)`. -/
def jsEndsWith (s suffixStr : String) : Bool :=
  suffixStr.data.isSuffixOf s.data

/-- Embedding of JS `s.slice(0, -1)`: drop the last character. -/
def jsDropLast (s : String) : String :=
  String.mk s.data.dropLast

/-- Embedding of JS `s.toUpperCase()` (the source only upper-cases ASCII
filter operators such as `is not`). -/
def jsToUpper (s : String) : String :=
  String.mk (s.data.map Char.toUpper)

/-- Substring test on character lists: `needle` occurs inside `hay`. -/
def listContainsSub (hay needle : List Char) : Bool :=
  needle.isPrefixOf hay ||
    match hay with
    | [] => false
    | _ :: t => listContainsSub t needle

/-- Embedding of JS `s.includes(needle)`. -/
def jsIncludes (s needle : String) : Bool :=
  listContainsSub s.data needle.data

/-- Fuel-driven rendering of the decimal digits of `n`, most significant
first; `fuel ≥ n` suffices for all digits to be produced. -/
def natToDecAux : Nat → Nat → List Char
  | 0, _ => []
  | _ + 1, 0 => []
  | fuel + 1, n + 1 =>
      natToDecAux fuel ((n + 1) / 10) ++ [Nat.digitChar ((n + 1) % 10)]

/-- Decimal rendering of a natural number, as produced by a JS template
literal for a non-negative integer. -/
def natToDec (n : Nat) : String :=
  if n = 0 then "0" else String.mk (natToDecAux n n)

/-- Decimal rendering of an integer, as produced by a JS template literal. -/
def intToDec (i : Int) : String :=
  match i with
  | Int.ofNat n => natToDec n
  | Int.negSucc n => "-" ++ natToDec (n + 1)

theorem digitChar_injOn : ∀ a, a < 10 → ∀ b, b < 10 →
    Nat.digitChar a = Nat.digitChar b → a = b := by decide

theorem map_digitChar_inj : ∀ (l₁ l₂ : List Nat), (∀ x ∈ l₁, x < 10) →
    (∀ x ∈ l₂, x < 10) → l₁.map Nat.digitChar = l₂.map Nat.digitChar → l₁ = l₂ := by
  intro l₁
  induction l₁ with
  | nil => intro l₂ _ _ h; cases l₂ <;> simp_all
  | cons a t ih =>
    intro l₂ h₁ h₂ h
    cases l₂ with
    | nil => simp at h
    | cons b t₂ =>
      simp only [List.map_cons, List.cons.injEq] at h
      have hab : a = b :=
        digitChar_injOn a (h₁ a (by simp)) b (h₂ b (by simp)) h.1
      have ht : t = t₂ :=
        ih t₂ (fun x hx => h₁ x (by simp [hx])) (fun x hx => h₂ x (by simp [hx])) h.2
      rw [hab, ht]

theorem digits_all_lt_ten (n : Nat) : ∀ x ∈ Nat.digits 10 n, x < 10 :=
  fun _ hx => Nat.digits_lt_base (by norm_num) hx

theorem digits_ne_single_zero (n : Nat) : Nat.digits 10 n ≠ [0] := by
  intro h
  have hn0 : Nat.ofDigits 10 (Nat.digits 10 n) = n := Nat.ofDigits_digits 10 n
  rw [h] at hn0
  simp [Nat.ofDigits] at hn0
  rw [← hn0] at h
  simp at h

theorem natToDecAux_zero (fuel : Nat) : natToDecAux fuel 0 = [] := by
  cases fuel <;> rfl

theorem natToDecAux_eq_digits :
    ∀ fuel n, n ≤ fuel → natToDecAux fuel n = ((Nat.digits 10 n).map Nat.digitChar).reverse := by
  intro fuel
  induction fuel with
  | zero =>
    intro n hn
    have : n = 0 := Nat.le_zero.mp hn
    subst this
    simp [natToDecAux_zero]
  | succ f ih =>
    intro n hn
    cases n with
    | zero => simp [natToDecAux_zero]
    | succ m =>
      have hdiv : (m + 1) / 10 ≤ f := by
        have h1 : (m + 1) / 10 < m + 1 := Nat.div_lt_self (Nat.succ_pos m) (by norm_num)
        omega
      have hrec := ih ((m + 1) / 10) hdiv
      rw [natToDecAux, hrec, Nat.digits_def' (by norm_num : (1:Nat) < 10) (Nat.succ_pos m)]
      simp

theorem natToDec_eq_digits (n : Nat) :
    natToDec n = if n = 0 then "0"
      else String.mk (((Nat.digits 10 n).map Nat.digitChar).reverse) := by
  unfold natToDec
  by_cases hn : n = 0
  · simp [hn]
  · rw [if_neg hn, if_neg hn, natToDecAux_eq_digits n n le_rfl]

theorem natToDec_inj : ∀ {m n : Nat}, natToDec m = natToDec n → m = n := by
  intro m n h
  rw [natToDec_eq_digits, natToDec_eq_digits] at h
  by_cases hm : m = 0 <;> by_cases hn : n = 0
  · exact hm.trans hn.symm
  · exfalso
    rw [if_pos hm, if_neg hn] at h
    have hd : ("0" : String).data = ((Nat.digits 10 n).map Nat.digitChar).reverse :=
      congrArg String.data h
    have hd2 : (Nat.digits 10 n).map Nat.digitChar = ['0'] := by
      have h3 := congrArg List.reverse hd
      simpa using h3.symm
    have h4 : Nat.digits 10 n = [0] :=
      map_digitChar_inj _ _ (digits_all_lt_ten n) (by decide)
        (by rw [hd2]; decide)
    exact digits_ne_single_zero n h4
  · exfalso
    rw [if_neg hm, if_pos hn] at h
    have hd : ((Nat.digits 10 m).map Nat.digitChar).reverse = ("0" : String).data :=
      congrArg String.data h
    have hd2 : (Nat.digits 10 m).map Nat.digitChar = ['0'] := by
      have h3 := congrArg List.reverse hd
      simpa using h3
    have h4 : Nat.digits 10 m = [0] :=
      map_digitChar_inj _ _ (digits_all_lt_ten m) (by decide)
        (by rw [hd2]; decide)
    exact digits_ne_single_zero m h4
  · rw [if_neg hm, if_neg hn] at h
    have hd : ((Nat.digits 10 m).map Nat.digitChar).reverse
        = ((Nat.digits 10 n).map Nat.digitChar).reverse := congrArg String.data h
    have hd2 : (Nat.digits 10 m).map Nat.digitChar = (Nat.digits 10 n).map Nat.digitChar := by
      have h3 := congrArg List.reverse hd
      simpa using h3
    have hdig : Nat.digits 10 m = Nat.digits 10 n :=
      map_digitChar_inj _ _ (digits_all_lt_ten m) (digits_all_lt_ten n) hd2
    have h1 := Nat.ofDigits_digits 10 m
    have h2 := Nat.ofDigits_digits 10 n
    rw [hdig] at h1
    exact h1.symm.trans h2

/-- Modelled from the spec: `OracleData.wrapIdentifier` of the dialect module
`@shared/lib/dialects/oracle` (not part of the sampled sources). Per §4.1 it
quotes an identifier and escapes embedded quote characters per the dialect
rule (Oracle doubles embedded double quotes). -/
def wrapIdentifier (name : String) : String :=
  "\"" ++ String.mk (name.data.flatMap fun c => if c = '"' then ['"', '"'] else [c]) ++ "\""

/-- Modelled from the spec: `OracleData.escapeString` of the dialect module
`@shared/lib/dialects/oracle` (not part of the sampled sources). Per §4.1 it
produces a quoted literal, escaping embedded quote characters (Oracle doubles
embedded single quotes); the second argument selects literal context
(surrounding single quotes). -/
def escapeString (value : String) (quote : Bool) : String :=
  let body := String.mk (value.data.flatMap fun c => if c = '\'' then ['\'', '\''] else [c])
  if quote then "'" ++ body ++ "'" else body

/-- Modelled from the spec: `OracleData.wrapLiteral` of the dialect module
(not part of the sampled sources): a pass-through of a caller-trusted raw
fragment (§4.1, §4.2). -/
def wrapLiteral (fragment : String) : String := fragment

/-- Dynamic value of a `TableFilter.value` field: a single string or a string
list, mirroring the loose TS type `string | string[]`. -/
inductive FilterValue where
  | single (s : String)
  | list (vs : List String)
deriving DecidableEq, Repr

/-- Embedding of one entry of a `TableFilter[]` list as consumed by
`genFilters`: a field name, an operator string and a dynamic value. -/
structure OracleTableFilter where
  field : String
  ftype : String
  value : FilterValue
deriving DecidableEq, Repr

/-- Modelled from the spec: `joinFilters` of `@/common/utils` (not part of the
sampled sources). Per §3 a filter list combines with a caller-specified
logical connective between entries; this model joins the rendered fragments
with `AND`. -/
def joinFilters (fragments : List String) : String :=
  String.intercalate " AND " fragments

/-- Embedding of the per-entry fragment generator inside
`OracleClient.genFilters` (the body of the `filters.map` callback,
`oracle.ts` lines 214-222). The branches that would raise a JS `TypeError`
on an ill-shaped dynamic value return `none`. -/
def genFilterItem (item : OracleTableFilter) : Option String :=
  if item.ftype = "in" then
    match item.value with
    | FilterValue.list vs =>
        some (wrapIdentifier item.field ++ " IN (" ++
          String.intercalate "," (vs.map fun v => escapeString v true) ++ ")")
    | FilterValue.single _ => none
  else if jsIncludes item.ftype "is" then
    some (wrapIdentifier item.field ++ " " ++ jsToUpper item.ftype ++ " NULL")
  else
    match item.value with
    | FilterValue.single v =>
        some (wrapIdentifier item.field ++ " " ++ item.ftype ++ " " ++ escapeString v true)
    | FilterValue.list _ => none

/-- Embedding of `OracleClient.genFilters` (`oracle.ts` lines 211-226): an
empty (or absent) filter list produces the empty string, otherwise the
entry fragments are rendered and joined behind `WHERE `. -/
def genFilters (filters : List OracleTableFilter) : Option String :=
  if filters.isEmpty then some ""
  else (filters.mapM genFilterItem).map fun allFilters => "WHERE " ++ joinFilters allFilters

/-- One entry of an `OrderBy[]` list: either a bare field name or an object
with a direction, mirroring `_.isObject` dispatch in `genOrderByString`. -/
inductive OrderByItem where
  | bare (field : String)
  | directed (field : String) (dir : String)
deriving DecidableEq, Repr

/-- Embedding of `OracleClient.genOrderByString` (`oracle.ts` lines 195-209). -/
def genOrderByString (orderBy : Option (List OrderByItem)) : String :=
  match orderBy with
  | none => ""
  | some items =>
      if items.isEmpty then ""
      else "ORDER BY " ++ String.intercalate ","
        (items.map fun item =>
          match item with
          | OrderByItem.directed f dir => wrapIdentifier f ++ " " ++ jsToUpper dir
          | OrderByItem.bare f => wrapIdentifier f)

/-- Filter argument of `genSelect`: a raw pre-escaped string or a structured
filter list, mirroring the `_.isString(filters)` dispatch. -/
inductive FilterArg where
  | raw (s : String)
  | structured (l : List OracleTableFilter)
deriving DecidableEq, Repr

/-- Embedding of the `filterString` computation at the top of
`OracleClient.genSelect` (`oracle.ts` lines 229-231). -/
def filterStringOf (filters : FilterArg) : Option String :=
  match filters with
  | FilterArg.raw s => some ("WHERE " ++ wrapLiteral s)
  | FilterArg.structured l => genFilters l

/-- Pagination clause emitted by `genSelect` when both offset and limit are
numbers (`oracle.ts` lines 242-243). -/
def paginationClause (offset limit : Int) : String :=
  "OFFSET " ++ intToDec offset ++ " ROWS FETCH NEXT " ++ intToDec limit ++ " ROWS ONLY"

/-- Embedding of the `offsetString` computation of `genSelect`
(`oracle.ts` lines 242-243): the clause appears exactly when both `offset`
and `limit` satisfy `_.isNumber`. -/
def offsetStringOf (offset limit : Option Int) : String :=
  match offset, limit with
  | some o, some l => paginationClause o l
  | _, _ => ""

/-- Embedding of `OracleClient.genSelect` (`oracle.ts` lines 228-255),
preserving the template-literal whitespace of the source. The result is
`none` only when the structured filter list is ill-shaped (a JS
`TypeError` path). -/
def genSelect (table : String) (offset limit : Option Int)
    (orderBy : Option (List OrderByItem)) (filters : FilterArg)
    (schema : Option String) (count : Bool) (selects : List String) : Option String :=
  (filterStringOf filters).map fun filterString =>
    let orderByString := genOrderByString orderBy
    let schemaString := match schema with
      | some s => wrapIdentifier s ++ "."
      | none => ""
    let baseSQL := "\n      FROM " ++ schemaString ++ wrapIdentifier table ++
      "\n      " ++ filterString ++ "\n    "
    let offsetString := offsetStringOf offset limit
    let selectFormatted := selects.map fun s => if s = "*" then "*" else wrapIdentifier s
    "\n      SELECT " ++
      (if count then "COUNT(1) as TOTAL" else String.intercalate ", " selectFormatted) ++
      " " ++ baseSQL ++ "\n      " ++ orderByString ++ "\n      " ++ offsetString ++ "\n    "

/-- Claim C4: for every (offset, limit) pair passed to SELECT generation, the
pagination clause (OFFSET ... ROWS FETCH NEXT ... ROWS ONLY) is emitted if and
only if both offset and limit are numbers; when exactly one of the two is
omitted, the generated query contains no pagination clause at all (it is
identical to the fully unpaginated query). -/
theorem genSelect_pagination (table : String) (orderBy : Option (List OrderByItem))
    (filters : FilterArg) (schema : Option String) (count : Bool)
    (selects : List String) (offset limit : Option Int) :
    ((offset = none ∨ limit = none) →
      genSelect table offset limit orderBy filters schema count selects
        = genSelect table none none orderBy filters schema count selects)
    ∧ (∀ (o l : Int) (fs : String), offset = some o → limit = some l →
        filterStringOf filters = some fs →
        ∃ pre post : String,
          genSelect table offset limit orderBy filters schema count selects
            = some (pre ++ paginationClause o l ++ post)) := by
  constructor
  · intro h
    have hoff : offsetStringOf offset limit = offsetStringOf none none := by
      rcases h with h | h
      · subst h; cases limit <;> rfl
      · subst h; cases offset <;> rfl
    unfold genSelect
    congr 1
    funext fs
    simp only [hoff]
  · intro o l fs ho hl hf
    subst ho; subst hl
    unfold genSelect
    rw [hf]
    exact ⟨_, _, rfl⟩

/-- Concrete instantiation of `genSelect_pagination`: supplying only a limit
yields the unpaginated query, and supplying both offset and limit puts the
pagination clause into the query text. -/
theorem genSelect_pagination_witness :
    (genSelect "T" none (some 5) none (FilterArg.raw "1=1") none false ["*"]
      = genSelect "T" none none none (FilterArg.raw "1=1") none false ["*"])
    ∧ ∃ pre post : String,
        genSelect "T" (some 2) (some 5) none (FilterArg.raw "1=1") none false ["*"]
          = some (pre ++ paginationClause 2 5 ++ post) :=
  ⟨(genSelect_pagination "T" none (FilterArg.raw "1=1") none false ["*"] none (some 5)).1
      (Or.inl rfl),
   (genSelect_pagination "T" none (FilterArg.raw "1=1") none false ["*"]
      (some 2) (some 5)).2 2 5 _ rfl rfl rfl⟩

/-- Claim C5: for every filter entry of type `is` or `is not`, the generated
WHERE fragment is exactly the wrapped field followed by IS NULL or
IS NOT NULL, ignoring any value the entry carries (the value argument `v` is
universally quantified and absent from the right-hand side); and for every
entry of type `in`, each value of the entry's value list is escaped
individually before being joined into the IN list. -/
theorem genFilterItem_is_null_and_in (field : String) (v : FilterValue) (vs : List String) :
    genFilterItem ⟨field, "is", v⟩ = some (wrapIdentifier field ++ " IS NULL")
    ∧ genFilterItem ⟨field, "is not", v⟩ = some (wrapIdentifier field ++ " IS NOT NULL")
    ∧ genFilterItem ⟨field, "in", FilterValue.list vs⟩
      = some (wrapIdentifier field ++ " IN ("
          ++ String.intercalate "," (vs.map fun x => escapeString x true) ++ ")") := by
  refine ⟨?_, ?_, ?_⟩
  · simp only [genFilterItem]
    rw [if_neg (by decide), if_pos (by decide)]
    rw [String.append_assoc, String.append_assoc]
    rfl
  · simp only [genFilterItem]
    rw [if_neg (by decide), if_pos (by decide)]
    rw [String.append_assoc, String.append_assoc]
    rfl
  · simp only [genFilterItem]
    rw [if_pos trivial]

/-- Statement of the change-application batch, one constructor per kind of
statement the builders of `./utils` emit (insert / update / delete /
post-update reselect), carrying the originating change descriptor. -/
inductive BatchSql (ι υ δ : Type) where
  | insertStmt (i : ι)
  | updateStmt (u : υ)
  | deleteStmt (d : δ)
  | reselectStmt (u : υ)
deriving DecidableEq, Repr

/-- Embedding of the `TableChanges` payload consumed by `applyChanges`:
lists of insert, update and delete descriptors. -/
structure TableChanges (ι υ δ : Type) where
  inserts : List ι
  updates : List υ
  deletes : List δ

/-- Modelled from the spec: `buildInsertQueries` of `./utils` (not part of the
sampled sources) renders one INSERT statement per inserted row (§4.2). -/
def buildInsertQueries {ι υ δ : Type} (inserts : List ι) : List (BatchSql ι υ δ) :=
  inserts.map BatchSql.insertStmt

/-- Modelled from the spec: `buildUpdateQueries` of `./utils` (not part of the
sampled sources) renders one UPDATE statement per updated row (§4.2). -/
def buildUpdateQueries {ι υ δ : Type} (updates : List υ) : List (BatchSql ι υ δ) :=
  updates.map BatchSql.updateStmt

/-- Modelled from the spec: `buildDeleteQueries` of `./utils` (not part of the
sampled sources) renders one DELETE statement per deleted row (§4.2). -/
def buildDeleteQueries {ι υ δ : Type} (deletes : List δ) : List (BatchSql ι υ δ) :=
  deletes.map BatchSql.deleteStmt

/-- Modelled from the spec: `buildSelectQueriesFromUpdates` of `./utils` (not
part of the sampled sources) emits one SELECT by primary key per updated row
(§4.2). -/
def buildSelectQueriesFromUpdates {ι υ δ : Type} (updates : List υ) : List (BatchSql ι υ δ) :=
  updates.map BatchSql.reselectStmt

/-- Modelled from the spec: `driverExecuteMultiple` of the base client (§4.5)
returns one normalized result per statement of the batch, in submission
order; `exec` is the engine's evaluation of one statement. -/
def driverExecuteMultiple {ι υ δ ρ : Type} (exec : BatchSql ι υ δ → ρ)
    (queries : List (BatchSql ι υ δ)) : List ρ :=
  queries.map exec

/-- Embedding of JS `arr.slice(start, -1)` for `0 ≤ start`: the elements from
index `start` up to, but excluding, the last element. -/
def jsSliceToNegOne {α : Type} (l : List α) (start : Nat) : List α :=
  (l.take (l.length - 1)).drop start

/-- Embedding of `OracleClient.applyChanges` (`oracle.ts` lines 146-161):
build the batch (inserts, updates, deletes, then reselects of the updated
rows), execute it as one multi-statement script, and return
`results.slice(results.length - changes.updates.length, -1)`. -/
def applyChanges {ι υ δ ρ : Type} (exec : BatchSql ι υ δ → ρ)
    (changes : TableChanges ι υ δ) : List ρ :=
  let insertQueries := buildInsertQueries (δ := δ) (υ := υ) changes.inserts
  let updateQueries := buildUpdateQueries (ι := ι) (δ := δ) changes.updates
  let deleteQueries := buildDeleteQueries (ι := ι) (υ := υ) changes.deletes
  let selectQueries := buildSelectQueriesFromUpdates (ι := ι) (δ := δ) changes.updates
  let queries := insertQueries ++ updateQueries ++ deleteQueries ++ selectQueries
  let results := driverExecuteMultiple exec queries
  jsSliceToNegOne results (results.length - changes.updates.length)

/-- Claim C1 (code bug): on a change set with exactly one update and nothing
else, `applyChanges` returns the empty list, while the claim requires
exactly the one reselect result of the updated row. The `-1` end bound of
the slice drops the final reselect result of every batch. -/
theorem applyChanges_drops_last_reselect :
    applyChanges (ι := Nat) (υ := Nat) (δ := Nat) (fun q => q)
        { inserts := [], updates := [0], deletes := [] } = []
    ∧ driverExecuteMultiple (ι := Nat) (υ := Nat) (δ := Nat) (fun q => q)
        (buildSelectQueriesFromUpdates [0]) = [BatchSql.reselectStmt 0] := by
  constructor
  · rfl
  · rfl

/-- Filter payload of the list operations (`FilterOptions`): optional schema
scope, allow-list (`only`) and deny-list (`ignore`). -/
structure FilterOptions where
  schema : Option String
  only : Option (List String)
  ignore : Option (List String)
deriving DecidableEq, Repr

/-- One row of the `ALL_TABLES` / `ALL_VIEWS` catalog relations, as far as
the list operations consume it: the owning schema and the entity name. -/
structure CatalogRow where
  owner : String
  name : String
deriving DecidableEq, Repr

/-- Uniform entity record produced by the list operations. -/
structure TableOrView where
  schema : String
  name : String
  entityType : String
deriving DecidableEq, Repr

/-- Modelled from the spec: the WHERE predicate accumulated by the knex
builder in `listTables` (`oracle.ts` lines 554-560) under standard SQL
semantics — `where OWNER = schema.toUpperCase()`, `whereIn(TABLE_NAME, only)`
and `whereNotIn(TABLE_NAME, ignore)` compose as a conjunction. -/
def tableRowMatches (filter : Option FilterOptions) (row : CatalogRow) : Prop :=
  (∀ s, (filter.bind FilterOptions.schema) = some s → row.owner = jsToUpper s)
  ∧ (∀ names, (filter.bind FilterOptions.only) = some names → row.name ∈ names)
  ∧ (∀ names, (filter.bind FilterOptions.ignore) = some names → row.name ∉ names)

instance (filter : Option FilterOptions) (row : CatalogRow) :
    Decidable (tableRowMatches filter row) := by
  unfold tableRowMatches
  infer_instance

/-- Modelled from the spec: the WHERE predicate accumulated by the knex
builder in `listViews` (`oracle.ts` lines 599-603) under standard SQL
semantics. The source applies `whereIn` — not `whereNotIn` — to the
`ignore` list, so both the `only` and the `ignore` list contribute a
membership condition. -/
def viewRowMatches (filter : Option FilterOptions) (row : CatalogRow) : Prop :=
  (∀ s, (filter.bind FilterOptions.schema) = some s → row.owner = jsToUpper s)
  ∧ (∀ names, (filter.bind FilterOptions.only) = some names → row.name ∈ names)
  ∧ (∀ names, (filter.bind FilterOptions.ignore) = some names → row.name ∈ names)

instance (filter : Option FilterOptions) (row : CatalogRow) :
    Decidable (viewRowMatches filter row) := by
  unfold viewRowMatches
  infer_instance

/-- Embedding of `OracleClient.listTables` (`oracle.ts` lines 554-570) over an
abstract `ALL_TABLES` catalog relation. -/
def listTables (allTables : List CatalogRow) (filter : Option FilterOptions) :
    List TableOrView :=
  (allTables.filter fun row => decide (tableRowMatches filter row)).map fun row =>
    { schema := row.owner, name := row.name, entityType := "table" }

/-- Embedding of `OracleClient.listViews` (`oracle.ts` lines 599-613) over an
abstract `ALL_VIEWS` catalog relation. -/
def listViews (allViews : List CatalogRow) (filter : Option FilterOptions) :
    List TableOrView :=
  (allViews.filter fun row => decide (viewRowMatches filter row)).map fun row =>
    { schema := row.owner, name := row.name, entityType := "view" }

/-- Claim C2 (code bug): `listViews` applies the deny-list with `whereIn`, so
a view whose name is in both the allow-list and the deny-list is returned,
while the claim requires that an entity named in the ignore-list is never
returned. Here the catalog holds one view `V1`, the filter carries
`only = [V1]` and `ignore = [V1]`, and the view is returned anyway. -/
theorem listViews_returns_ignored_entity :
    listViews [{ owner := "S", name := "V1" }]
        (some { schema := none, only := some ["V1"], ignore := some ["V1"] })
      = [{ schema := "S", name := "V1", entityType := "view" }]
    ∧ listTables [{ owner := "S", name := "V1" }]
        (some { schema := none, only := some ["V1"], ignore := some ["V1"] })
      = [] := by
  constructor
  · rfl
  · rfl

/-- Classification record produced by the statement identifier
(`sql-query-identifier`), as far as the client consumes it. -/
structure IdentifyResult where
  text : String
  executionType : String
deriving DecidableEq, Repr

/-- Embedding of `OracleClient.maybeStripSemicolon` (`oracle.ts` lines
726-732): for statements not classified `ANON_BLOCK`, if the
whitespace-trimmed text ends in a semicolon, the trimmed text without its
final character is sent; otherwise the text is unchanged. -/
def maybeStripSemicolon (query : String) (i : IdentifyResult) : String :=
  if i.executionType ≠ "ANON_BLOCK" then
    if jsEndsWith (jsTrimEnd query) ";" then jsDropLast (jsTrimEnd query) else query
  else query

theorem jsDropLast_append_semicolon {s : String} (h : jsEndsWith s ";" = true) :
    jsDropLast s ++ ";" = s := by
  unfold jsEndsWith at h
  rw [List.isSuffixOf_iff_suffix] at h
  obtain ⟨t, ht⟩ := h
  have ht2 : t ++ [';'] = s.data := ht
  apply String.ext
  rw [String.data_append]
  show s.data.dropLast ++ [';'] = s.data
  rw [← ht2, List.dropLast_concat]

/-- Claim C7, counterexample: for the non-block statement text
`select 1; ` (trailing semicolon followed by a space) the code returns
`select 1` — the trailing whitespace is removed along with the semicolon —
while removing exactly the final semicolon would give `select 1 `. -/
theorem maybeStripSemicolon_cex :
    maybeStripSemicolon "select 1; " { text := "select 1; ", executionType := "SELECT" }
      = "select 1"
    ∧ maybeStripSemicolon "select 1; " { text := "select 1; ", executionType := "SELECT" }
      ≠ "select 1 " := by
  constructor
  · decide
  · decide

/-- Claim C7 as amended: a statement classified `ANON_BLOCK` is forwarded
with its text unchanged; for every other classification, when the
whitespace-trimmed text ends in a semicolon the result is that trimmed text
with exactly its final semicolon removed (so trailing whitespace after the
semicolon is removed as well), and when it does not end in a semicolon the
text is forwarded unchanged. -/
theorem maybeStripSemicolon_amended (q : String) (i : IdentifyResult) :
    (i.executionType = "ANON_BLOCK" → maybeStripSemicolon q i = q)
    ∧ (i.executionType ≠ "ANON_BLOCK" →
        (jsEndsWith (jsTrimEnd q) ";" = true →
          maybeStripSemicolon q i ++ ";" = jsTrimEnd q)
        ∧ (jsEndsWith (jsTrimEnd q) ";" = false → maybeStripSemicolon q i = q)) := by
  constructor
  · intro h
    unfold maybeStripSemicolon
    rw [if_neg (fun hC => hC h)]
  · intro hne
    constructor
    · intro hend
      unfold maybeStripSemicolon
      rw [if_pos hne, if_pos hend]
      exact jsDropLast_append_semicolon hend
    · intro hend
      unfold maybeStripSemicolon
      rw [if_pos hne, if_neg (by simp [hend])]

/-- Concrete instantiation of `maybeStripSemicolon_amended`: an anonymous
block keeps its internal and trailing separators, an ordinary statement with
`; ` at the end loses exactly the final semicolon of its trimmed text, and an
ordinary statement without a trailing semicolon is unchanged. -/
theorem maybeStripSemicolon_amended_witness :
    maybeStripSemicolon "BEGIN NULL; END;"
        { text := "BEGIN NULL; END;", executionType := "ANON_BLOCK" } = "BEGIN NULL; END;"
    ∧ maybeStripSemicolon "select 1; "
        { text := "select 1; ", executionType := "SELECT" } ++ ";" = jsTrimEnd "select 1; "
    ∧ maybeStripSemicolon "select 1"
        { text := "select 1", executionType := "SELECT" } = "select 1" :=
  ⟨(maybeStripSemicolon_amended "BEGIN NULL; END;"
      { text := "BEGIN NULL; END;", executionType := "ANON_BLOCK" }).1 rfl,
   ((maybeStripSemicolon_amended "select 1; "
      { text := "select 1; ", executionType := "SELECT" }).2 (by decide)).1 (by decide),
   ((maybeStripSemicolon_amended "select 1"
      { text := "select 1", executionType := "SELECT" }).2 (by decide)).2 (by decide)⟩

/-- Column metadata entry of an `oracledb` result, as far as the client
consumes it: the source column name and the database type name. -/
structure OracleMeta where
  name : String
  dbTypeName : String
deriving DecidableEq, Repr

/-- Field descriptor of a normalized query result. -/
structure FieldDescriptor where
  name : String
  id : String
  dataType : String
deriving DecidableEq, Repr

/-- Raw `oracledb` result record, as far as `parseResult` consumes it; the
driver omits `metaData`/`rows` for non-SELECT statements, hence the
options. -/
structure OracleRawResult (α : Type) where
  metaData : Option (List OracleMeta)
  rows : Option (List (List α))
  rowsAffected : Option Nat

/-- Pair of a raw driver result and the classification of the statement that
produced it (`DriverResult` of `oracle.ts`). -/
structure DriverResult (α : Type) where
  result : OracleRawResult α
  info : IdentifyResult

/-- Synthetic positional field id `c<idx>` assigned by `metaToFields`. -/
def mkFieldId (idx : Nat) : String := "c" ++ natToDec idx

/-- Embedding of `OracleClient.metaToFields` (`oracle.ts` lines 720-724). -/
def metaToFields (metaData : Option (List OracleMeta)) : List FieldDescriptor :=
  match metaData with
  | some metas => metas.enum.map fun p =>
      { name := p.2.name, id := mkFieldId p.1, dataType := p.2.dbTypeName }
  | none => []

/-- Embedding of lodash `_.zipObject(keys, values)` with the resulting JS
object represented as its ordered property list: one property per key, whose
value is `undefined` (`none`) when `values` is shorter. -/
def zipObject {α : Type} (keys : List String) (vals : List α) : List (String × Option α) :=
  keys.enum.map fun p => (p.2, vals.get? p.1)

/-- Normalized query result (`NgQueryResult`), with rows as ordered
property lists. -/
structure NgQueryResult (α : Type) where
  command : String
  rowCount : Nat
  affectedRows : Nat
  rows : List (List (String × Option α))
  fields : List FieldDescriptor

/-- Embedding of `OracleClient.parseResult` (`oracle.ts` lines 706-717). -/
def parseResult {α : Type} (r : DriverResult α) : NgQueryResult α :=
  let fields := metaToFields r.result.metaData
  let fieldIds := fields.map FieldDescriptor.id
  { command := r.info.text
    rowCount := (r.result.rows.map List.length).getD 0
    affectedRows := r.result.rowsAffected.getD 0
    rows := (r.result.rows.map fun rs => rs.map fun rowVals => zipObject fieldIds rowVals).getD []
    fields := fields }

/-- Embedding of `OracleClient.parseResults` (`oracle.ts` lines 699-704). -/
def parseResults {α : Type} (results : List (DriverResult α)) : List (NgQueryResult α) :=
  results.map parseResult

theorem mkFieldId_inj : Function.Injective mkFieldId := by
  intro a b h
  unfold mkFieldId at h
  have hd := congrArg String.data h
  rw [String.data_append, String.data_append] at hd
  simp only [List.cons_append, List.nil_append, List.cons.injEq] at hd
  exact natToDec_inj (String.ext hd.2)

theorem metaToFields_ids (metaData : Option (List OracleMeta)) :
    (metaToFields metaData).map FieldDescriptor.id
      = (List.range (metaToFields metaData).length).map mkFieldId := by
  cases metaData with
  | none => rfl
  | some metas =>
    simp only [metaToFields, List.map_map, List.length_map, List.enum_length]
    rw [← List.enum_map_fst metas, List.map_map]
    rfl

theorem zipObject_keys {α : Type} (keys : List String) (vals : List α) :
    (zipObject keys vals).map Prod.fst = keys := by
  unfold zipObject
  rw [List.map_map]
  have hcomp : (Prod.fst ∘ fun p : Nat × String => (p.2, vals.get? p.1)) = Prod.snd := by
    funext p; rfl
  rw [hcomp, List.enum_map_snd]

/-- Claim C8: the synthetic field ids of a parsed result are positional
(`c0, c1, ...` in metadata order) and therefore pairwise distinct within the
result, regardless of source-column names; and every row object produced by
`parseResult` is keyed by exactly these ids, in the same order as the
`fields` list. -/
theorem parseResult_field_ids {α : Type} (r : DriverResult α) :
    ((parseResult r).fields.map FieldDescriptor.id
      = (List.range (parseResult r).fields.length).map mkFieldId)
    ∧ ((parseResult r).fields.map FieldDescriptor.id).Nodup
    ∧ (∀ row ∈ (parseResult r).rows,
        row.map Prod.fst = (parseResult r).fields.map FieldDescriptor.id) := by
  refine ⟨metaToFields_ids _, ?_, ?_⟩
  · rw [show (parseResult r).fields = metaToFields r.result.metaData from rfl,
      metaToFields_ids]
    exact List.Nodup.map mkFieldId_inj (List.nodup_range _)
  · intro row hrow
    have hrows : (parseResult r).rows
        = (r.result.rows.map fun rs => rs.map fun rowVals =>
            zipObject ((metaToFields r.result.metaData).map FieldDescriptor.id) rowVals).getD []
        := rfl
    rw [hrows] at hrow
    cases hr : r.result.rows with
    | none => rw [hr] at hrow; simp at hrow
    | some rs =>
      rw [hr] at hrow
      simp only [Option.map_some', Option.getD_some] at hrow
      obtain ⟨orig, _, heq⟩ := List.mem_map.mp hrow
      rw [← heq]
      exact zipObject_keys _ _

/-- Sample driver result with two columns that share the source name `A`
and one data row, exercising `parseResult_field_ids`. -/
def sampleDriverResult : DriverResult Nat :=
  { result :=
      { metaData := some [{ name := "A", dbTypeName := "NUMBER" },
                          { name := "A", dbTypeName := "NUMBER" }]
        rows := some [[7, 8]]
        rowsAffected := none }
    info := { text := "q", executionType := "SELECT" } }

/-- Concrete instantiation of `parseResult_field_ids`: with two identically
named source columns the ids are `c0`, `c1` and the single row is keyed by
them in field order. -/
theorem parseResult_field_ids_witness :
    [("c0", (some 7 : Option Nat)), ("c1", some 8)].map Prod.fst
      = (parseResult sampleDriverResult).fields.map FieldDescriptor.id :=
  (parseResult_field_ids sampleDriverResult).2.2
    [("c0", (some 7 : Option Nat)), ("c1", some 8)] (by decide)

/-- JS error value reaching the catch block of `query(text).execute`: an
optional message plus the rest of the error payload (driver error number),
which a cosmetic message rewrite must not touch. -/
structure JsError where
  message : Option String
  errorNum : Int
deriving DecidableEq, Repr

/-- Known driver error substring recognized by the catch block of
`OracleClient.query` (`oracle.ts` line 669). -/
def tableOrViewMissing : String := "table or view does not exist"

/-- Suffix appended to the message of a recognized error
(`oracle.ts` line 670). -/
def quotingSuffix : String := " - have you tried \"quoting\" the table name?"

/-- Embedding of the catch block of `OracleClient.query(text).execute`
(`oracle.ts` lines 665-673): a canceled run swallows the error (`none`),
otherwise the error is re-thrown (`some`), with its message rewritten by
appending the quoting suggestion exactly when the message contains the known
driver substring. -/
def handleQueryError (canceling : Bool) (err : JsError) : Option JsError :=
  if canceling then none
  else if (match err.message with
           | some m => jsIncludes m tableOrViewMissing
           | none => false) then
    some { err with message := some ((err.message.getD "") ++ quotingSuffix) }
  else some err

/-- Claim C9: every non-canceled execution error whose message contains the
known driver substring is re-thrown with its message rewritten to append the
quoting suggestion and with no other change (the error payload is preserved
by the structure update); every other non-canceled error propagates
verbatim. -/
theorem handleQueryError_rewrite (err : JsError) :
    (∀ m : String, err.message = some m → jsIncludes m tableOrViewMissing = true →
      handleQueryError false err = some { err with message := some (m ++ quotingSuffix) })
    ∧ (∀ m : String, err.message = some m → jsIncludes m tableOrViewMissing = false →
      handleQueryError false err = some err)
    ∧ (err.message = none → handleQueryError false err = some err) := by
  refine ⟨?_, ?_, ?_⟩
  · intro m hm hinc
    unfold handleQueryError
    rw [if_neg (by simp), if_pos (by rw [hm]; exact hinc), hm]
    rfl
  · intro m hm hinc
    unfold handleQueryError
    rw [if_neg (by simp), if_neg (by rw [hm]; simp [hinc])]
  · intro hm
    unfold handleQueryError
    rw [if_neg (by simp), if_neg (by rw [hm]; simp)]

/-- Concrete instantiation of `handleQueryError_rewrite` on a recognized
driver error, an unrecognized one, and a message-less one. -/
theorem handleQueryError_rewrite_witness :
    handleQueryError false
        { message := some "ORA-00942: table or view does not exist", errorNum := 942 }
      = some { message := some ("ORA-00942: table or view does not exist" ++ quotingSuffix),
               errorNum := 942 }
    ∧ handleQueryError false { message := some "ORA-00001: unique constraint", errorNum := 1 }
      = some { message := some "ORA-00001: unique constraint", errorNum := 1 }
    ∧ handleQueryError false { message := none, errorNum := 0 }
      = some { message := none, errorNum := 0 } :=
  ⟨(handleQueryError_rewrite
      { message := some "ORA-00942: table or view does not exist", errorNum := 942 }).1
      "ORA-00942: table or view does not exist" rfl (by decide),
   (handleQueryError_rewrite
      { message := some "ORA-00001: unique constraint", errorNum := 1 }).2.1
      "ORA-00001: unique constraint" rfl (by decide),
   (handleQueryError_rewrite { message := none, errorNum := 0 }).2.2 rfl⟩

/-- Result shape of `selectTop`: the row objects and the derived field-name
list. Rows are the ordered field-name/value objects assembled by
`driverExecuteSimple`. -/
structure TableResult (α : Type) where
  result : List (List (String × α))
  fields : List String
deriving DecidableEq, Repr

/-- Embedding of the field-name derivation of `selectTop`
(`oracle.ts` line 266): `Object.keys(result[0] || {})`. -/
def jsObjectKeys {α : Type} (row : List (String × α)) : List String :=
  row.map Prod.fst

/-- Embedding of `OracleClient.selectTop` (`oracle.ts` lines 263-268); `exec`
abstracts `driverExecuteSimple`, the engine's evaluation of the generated
query into name-keyed row objects. -/
def selectTop {α : Type} (exec : String → List (List (String × α)))
    (table : String) (offset limit : Option Int) (orderBy : Option (List OrderByItem))
    (filters : FilterArg) (schema : Option String) (selects : List String) :
    Option (TableResult α) :=
  (genSelect table offset limit orderBy filters schema false selects).map fun query =>
    let result := exec query
    let fields := jsObjectKeys ((result.get? 0).getD [])
    { result := result, fields := fields }

/-- Claim C10: when the generated query yields zero rows, `selectTop`
returns normally with an empty row list and an empty field list — the
guarded first-row access (`result[0] || {}`) makes the empty case total. -/
theorem selectTop_empty {α : Type} (exec : String → List (List (String × α)))
    (table : String) (offset limit : Option Int) (orderBy : Option (List OrderByItem))
    (filters : FilterArg) (schema : Option String) (selects : List String)
    (q : String)
    (hq : genSelect table offset limit orderBy filters schema false selects = some q)
    (hempty : exec q = []) :
    selectTop exec table offset limit orderBy filters schema selects
      = some { result := [], fields := [] } := by
  unfold selectTop
  rw [hq, Option.map_some', hempty]
  rfl

/-- Concrete instantiation of `selectTop_empty` with an engine returning no
rows. -/
theorem selectTop_empty_witness :
    selectTop (fun _ => ([] : List (List (String × Nat)))) "T" none none none
        (FilterArg.raw "1=1") none ["*"]
      = some { result := [], fields := [] } :=
  selectTop_empty (fun _ => ([] : List (List (String × Nat)))) "T" none none none
    (FilterArg.raw "1=1") none ["*"] _ rfl rfl

/-- One row of the `all_constraints` catalog relation, as far as the
primary-keys query consumes it. -/
structure ConsRow where
  constraintName : String
  owner : String
  constraintType : String
  status : String
deriving DecidableEq, Repr

/-- One row of the `all_cons_columns` catalog relation, as far as the
primary-keys query consumes it. -/
structure ConsColRow where
  tableName : String
  columnName : String
  constraintName : String
  owner : String
  position : Nat
deriving DecidableEq, Repr

/-- WHERE condition of the primary-keys query of `getPrimaryKeys`
(`oracle.ts` lines 446-460) on a pair of joined catalog rows: the column row
belongs to the requested table (and upper-cased schema when given), the
constraint is of type `P`, and the two rows agree on constraint name and
owner. -/
def pkJoinCondition (table : String) (schema : Option String)
    (cc : ConsColRow) (cn : ConsRow) : Prop :=
  cc.tableName = table
  ∧ (∀ s, schema = some s → cc.owner = jsToUpper s)
  ∧ cn.constraintType = "P"
  ∧ cn.constraintName = cc.constraintName
  ∧ cn.owner = cc.owner

instance (table : String) (schema : Option String) (cc : ConsColRow) (cn : ConsRow) :
    Decidable (pkJoinCondition table schema cc cn) := by
  unfold pkJoinCondition
  infer_instance

/-- Ordering of the `ORDER BY cols.table_name, cols.position` clause of the
primary-keys query on the reachable result sets. Every row satisfying the
WHERE condition carries the single requested table name, so on the query
result the lexicographic (table_name, position) order of the source clause
coincides with the order on the key position alone, which is how it is
modelled. -/
def pkRowLe (a b : ConsColRow) : Prop :=
  a.position ≤ b.position

instance : DecidableRel pkRowLe := fun a b =>
  Nat.decLe a.position b.position

instance : IsTotal ConsColRow pkRowLe where
  total a b := Nat.le_total a.position b.position

instance : IsTrans ConsColRow pkRowLe where
  trans _ _ _ hab hbc := Nat.le_trans hab hbc

/-- Modelled from the spec: the database engine's evaluation of the
primary-keys introspection query emitted by `getPrimaryKeys` (the engine is
an external collaborator; the query text is `oracle.ts` lines 446-460).
Standard SQL semantics of that text: join `all_cons_columns` with
`all_constraints` under `pkJoinCondition` and order the result by
(table_name, position), per §4.6 and the §8 scenario (entries come back
ordered by position 1, 2). -/
def primaryKeysQueryRows (consCols : List ConsColRow) (cons : List ConsRow)
    (table : String) (schema : Option String) : List ConsColRow :=
  List.insertionSort pkRowLe
    (consCols.flatMap fun cc =>
      (cons.filter fun cn => decide (pkJoinCondition table schema cc cn)).map fun _ => cc)

/-- Primary-key column record returned by `getPrimaryKeys`. -/
structure PrimaryKeyColumn where
  columnName : String
  position : Nat
deriving DecidableEq, Repr

/-- Embedding of `OracleClient.getPrimaryKeys` (`oracle.ts` lines 441-468)
over abstract catalog relations: each result row is mapped to its
`COLUMN_NAME` and `POSITION`. -/
def getPrimaryKeys (consCols : List ConsColRow) (cons : List ConsRow)
    (table : String) (schema : Option String) : List PrimaryKeyColumn :=
  (primaryKeysQueryRows consCols cons table schema).map fun r =>
    { columnName := r.columnName, position := r.position }

/-- Embedding of `OracleClient.getPrimaryKey` (`oracle.ts` lines 435-439):
`all.length === 1 ? all[0].columnName : null`. -/
def getPrimaryKey (consCols : List ConsColRow) (cons : List ConsRow)
    (table : String) (schema : Option String) : Option String :=
  match getPrimaryKeys consCols cons table schema with
  | [pk] => some pk.columnName
  | _ => none

/-- Claim C6: `getPrimaryKey` returns the single column name exactly when
`getPrimaryKeys` returns a list of length one, and returns the no-single-key
signal (`none`, not an error) whenever `getPrimaryKeys` returns zero or
two-or-more entries; and `getPrimaryKeys` returns its entries ordered by key
position. -/
theorem getPrimaryKey_single_key (consCols : List ConsColRow) (cons : List ConsRow)
    (table : String) (schema : Option String) :
    (∀ pk, getPrimaryKeys consCols cons table schema = [pk] →
      getPrimaryKey consCols cons table schema = some pk.columnName)
    ∧ ((getPrimaryKeys consCols cons table schema).length ≠ 1 →
      getPrimaryKey consCols cons table schema = none)
    ∧ List.Sorted (fun a b : PrimaryKeyColumn => a.position ≤ b.position)
        (getPrimaryKeys consCols cons table schema) := by
  refine ⟨?_, ?_, ?_⟩
  · intro pk h
    unfold getPrimaryKey
    rw [h]
  · intro hlen
    unfold getPrimaryKey
    cases hall : getPrimaryKeys consCols cons table schema with
    | nil => rfl
    | cons x xs =>
      cases xs with
      | nil => rw [hall] at hlen; simp at hlen
      | cons y ys => rfl
  · have hs : List.Sorted pkRowLe (primaryKeysQueryRows consCols cons table schema) :=
      List.sorted_insertionSort pkRowLe _
    exact List.Pairwise.map _ (fun a b h => h) hs

/-- Concrete instantiation of `getPrimaryKey_single_key`: on a table with a
single-column key the column name is returned; on a table with a two-column
composite key (rows arriving unordered) `getPrimaryKey` signals
no-single-key. -/
theorem getPrimaryKey_single_key_witness :
    getPrimaryKey [{ tableName := "T", columnName := "ID", constraintName := "PK",
                     owner := "OWN", position := 1 }]
        [{ constraintName := "PK", owner := "OWN", constraintType := "P",
           status := "ENABLED" }] "T" none
      = some ({ columnName := "ID", position := 1 } : PrimaryKeyColumn).columnName
    ∧ getPrimaryKey
        [{ tableName := "T", columnName := "B", constraintName := "PK",
           owner := "OWN", position := 2 },
         { tableName := "T", columnName := "A", constraintName := "PK",
           owner := "OWN", position := 1 }]
        [{ constraintName := "PK", owner := "OWN", constraintType := "P",
           status := "ENABLED" }] "T" none
      = none :=
  ⟨(getPrimaryKey_single_key _ _ "T" none).1 { columnName := "ID", position := 1 }
      (by decide),
   (getPrimaryKey_single_key _ _ "T" none).2.1 (by decide)⟩
